import Mathlib

/-!
Shallow embedding of the target-assignment engine of the whitman-wipeout
repository (`src/backend/src/game/target/target.service.ts` together with
`src/backend/src/game/player/player.service.ts`), and proofs of the
specification claims about it.

The embedding models a single game: the Mongo collections `players` and
`targets` become lists, Mongo object ids become naturals drawn from a
fresh-id counter, and each service method becomes a pure function from the
game state to a new game state paired with an optional thrown exception
(`GameState × Option ServiceError`).  A method that throws before writing
returns the unchanged input state, exactly mirroring where the guards sit
relative to the writes in the source.
-/

namespace WhitmanWipeout

/-- `PlayerStatus` from `player.schema.ts` (values used by the services). -/
inductive PlayerStatus
  | ALIVE
  | SAFE
  | KILLED
  | DISQUALIFIED
deriving DecidableEq, Repr

/-- `PlayerRole` from `player.schema.ts`. -/
inductive PlayerRole
  | ADMIN
  | PLAYER
  | NONE
deriving DecidableEq, Repr

/-- `TargetStatus` from `target.schema.ts`. -/
inductive TargetStatus
  | PENDING
  | COMPLETE
  | EXPIRED
deriving DecidableEq, Repr

/-- `GameStatus` from `game.schema.ts` (the values the target service uses). -/
inductive GameStatus
  | SETUP
  | IN_PROGRESS
  | FINISHED
deriving DecidableEq, Repr

/-- A `Player` document: id, lifecycle status and optional team partner.
The single modelled game makes the `gameId`/`userId` columns constant, and the
`invited`/`invitedBy` lists play no role in the claims, so they are omitted. -/
structure Player where
  id : Nat
  status : PlayerStatus
  teamPartnerId : Option Nat
deriving DecidableEq, Repr

instance : Inhabited Player := ⟨⟨0, PlayerStatus.ALIVE, none⟩⟩

/-- A `Target` document (a TargetAssignment edge): `playerId` is the
`fromPlayer`, `targetId` the `toPlayer`. -/
structure Target where
  id : Nat
  playerId : Nat
  targetId : Nat
  status : TargetStatus
deriving DecidableEq, Repr

instance : Inhabited Target := ⟨⟨0, 0, 0, TargetStatus.PENDING⟩⟩

/-- The persistent state of one game: its lifecycle status, the player and
target collections, and a counter supplying fresh Mongo ids for inserts. -/
structure GameState where
  gameStatus : GameStatus
  players : List Player
  targets : List Target
  nextId : Nat
deriving DecidableEq, Repr

/-- The exceptions of `utils/exceptions` that the modelled methods throw,
plus `jsTypeError` for a JavaScript `TypeError` raised by dereferencing an
`undefined` lookup result. -/
inductive ServiceError
  | gameStatusNotValid
  | playerRoleUnauthorized
  | playerStatusNotValid (pid : Nat)
  | playerNotFound (pid : Nat)
  | targetNotFound (tid : Nat)
  | targetStatusNotValid (tid : Nat) (st : TargetStatus)
  | jsTypeError
deriving DecidableEq, Repr

instance {ε α : Type} [DecidableEq ε] [DecidableEq α] :
    DecidableEq (Except ε α) := fun x y =>
  match x, y with
  | Except.error a, Except.error b =>
    if h : a = b then isTrue (by rw [h])
    else isFalse (by intro hc; cases hc; exact h rfl)
  | Except.error _, Except.ok _ => isFalse (by intro hc; cases hc)
  | Except.ok _, Except.error _ => isFalse (by intro hc; cases hc)
  | Except.ok a, Except.ok b =>
    if h : a = b then isTrue (by rw [h])
    else isFalse (by intro hc; cases hc; exact h rfl)

/-- JavaScript truthiness of an array value: an array object is always
truthy, so the guard `if (!query)` on the result of `model.find(...)` can
never fire.  The constant is kept so the dead guard of the `findById`
methods is visible in the embedding. -/
def jsArrayFalsy {α : Type} (_ : List α) : Bool := false

namespace PlayerService

/-- `PlayerService.findById`: `model.find({ _id: playerId })` filters the
collection; the not-found guard tests the returned array for falsiness and
the method resolves to `query[0]`, which is `undefined` (here `none`) when
nothing matched. -/
def findById (players : List Player) (pid : Nat) :
    Except ServiceError (Option Player) :=
  let query := players.filter (fun p => p.id == pid)
  if jsArrayFalsy query then Except.error (ServiceError.playerNotFound pid)
  else Except.ok query.head?

/-- `PlayerService.findByGameAndStatus`.  The declaration takes a single
status, but both call sites in the target service pass the array
`[ALIVE, SAFE]`; modelled as the set-membership query those call sites
intend. -/
def findByGameAndStatus (players : List Player)
    (statuses : List PlayerStatus) : List Player :=
  players.filter (fun p => statuses.contains p.status)

end PlayerService

namespace TargetService

/-- `TargetService.findById`: same shape as `PlayerService.findById`, over
the target collection. -/
def findById (targets : List Target) (tid : Nat) :
    Except ServiceError (Option Target) :=
  let query := targets.filter (fun t => t.id == tid)
  if jsArrayFalsy query then Except.error (ServiceError.targetNotFound tid)
  else Except.ok query.head?

end TargetService

/-- Update every target's status in place, keeping all other fields: the
shape of every `updateMany`/`save` the target service performs on the
target collection. -/
def mapStatus (f : Target → TargetStatus) (ts : List Target) : List Target :=
  ts.map (fun t => { t with status := f t })

/-- One iteration of the `players.forEach` grouping loop of
`TargetService.matchPlayers`: skip already-grouped players; a player whose
partner is in the eligible map forms a two-member team, otherwise a solo
team.  The accumulator is the pair (`validTeams`, `grouped`). -/
def groupStep (eligible : List Player) (acc : List (List Nat) × List Nat)
    (player : Player) : List (List Nat) × List Nat :=
  if acc.2.contains player.id then acc
  else
    match player.teamPartnerId with
    | some partnerId =>
      if eligible.any (fun q => q.id == partnerId) then
        (acc.1 ++ [[player.id, partnerId]], acc.2 ++ [player.id, partnerId])
      else
        (acc.1 ++ [[player.id]], acc.2 ++ [player.id])
    | none => (acc.1 ++ [[player.id]], acc.2 ++ [player.id])

/-- The `validTeams` list computed by `TargetService.matchPlayers` from the
eligible (ALIVE or SAFE) players. -/
def computeValidTeams (players : List Player) : List (List Nat) :=
  (players.foldl (groupStep players) ([], [])).1

/-- The circular assignment loop of `TargetService.matchPlayers`: team `i`
targets team `(i+1) % n`, with every member of team `i` targeting every
member of the target team.  Inserted documents receive fresh ids starting
at `startId`; their status is PENDING (modelled from the spec: the
`Target` schema file is not under `src/`, and the spec states the generator
creates PENDING edges, matching the explicit `status: PENDING` the same
service sets on the documents it builds in `killTarget`). -/
def circularPairs (teams : List (List Nat)) : List (Nat × Nat) :=
  (List.range teams.length).flatMap (fun i =>
    (teams.getD i []).flatMap (fun playerId =>
      (teams.getD ((i + 1) % teams.length) []).map (fun targetId =>
        (playerId, targetId))))

def buildTargetDocs (startId : Nat) (teams : List (List Nat)) : List Target :=
  (circularPairs teams).enum.map (fun kpq =>
    { id := startId + kpq.1, playerId := kpq.2.1, targetId := kpq.2.2,
      status := TargetStatus.PENDING })

/-- `TargetService.matchPlayers`.  The unbiased shuffle of `utils/misc` is
external randomness, passed in as the `shuffle` argument; the admin-role
resolution is external (`PlayerService.getRole` consults the user/game
stores), passed in as `role`.  Expires every PENDING target of the game,
inserts the new circular assignment, and moves the game to IN_PROGRESS. -/
def matchPlayers (shuffle : List (List Nat) → List (List Nat))
    (role : PlayerRole) (g : GameState) : GameState × Option ServiceError :=
  if role ≠ PlayerRole.ADMIN then (g, some ServiceError.playerRoleUnauthorized)
  else
    let players := PlayerService.findByGameAndStatus g.players
      [PlayerStatus.ALIVE, PlayerStatus.SAFE]
    let validTeams := computeValidTeams players
    let shuffledTeams := shuffle validTeams
    let targetDocuments := buildTargetDocs g.nextId shuffledTeams
    let expired := mapStatus
      (fun t => if t.status == TargetStatus.PENDING then TargetStatus.EXPIRED
                else t.status) g.targets
    let newStatus := if g.gameStatus ≠ GameStatus.IN_PROGRESS
      then GameStatus.IN_PROGRESS else g.gameStatus
    ({ gameStatus := newStatus, players := g.players,
       targets := expired ++ targetDocuments,
       nextId := g.nextId + targetDocuments.length }, none)

/-- The killer's-partner resolution of `TargetService.killTarget` (lines
282–289): look the partner up in the post-kill player collection and null
the result out unless the partner is ALIVE. -/
def resolvedPartner (players : List Player) (killer : Player) : Option Player :=
  match killer.teamPartnerId with
  | none => none
  | some ppid =>
    match PlayerService.findById players ppid with
    | Except.error _ => none
    | Except.ok none => none
    | Except.ok (some kp) =>
      if kp.status ≠ PlayerStatus.ALIVE then none else some kp

/-- The `killerTeamIds` set of `TargetService.killTarget`: the killer, plus
the partner when a partner id exists and the resolved partner is non-null. -/
def killerTeamIdsOf (players : List Player) (killer : Player) : List Nat :=
  [killer.id] ++
    (match killer.teamPartnerId, resolvedPartner players killer with
     | some _, some kp => [kp.id]
     | _, _ => [])

/-- `killed.status = KILLED; killed.save()`: the player collection after
the victim is marked dead. -/
def killedPlayers (g : GameState) (killed : Player) : List Player :=
  g.players.map (fun p =>
    if p.id == killed.id then { p with status := PlayerStatus.KILLED } else p)

/-- `target.status = COMPLETE; target.save()`: the consumed assignment is
completed. -/
def completeTarget (target : Target) (ts : List Target) : List Target :=
  mapStatus (fun t =>
    if t.id == target.id then TargetStatus.COMPLETE else t.status) ts

/-- The three expiry `updateMany` steps of `killTarget`: every PENDING edge
pointing to the victim, every PENDING edge of the victim, and (when the
killer has a live partner `kp`) that partner's PENDING edge on the
victim. -/
def expireVictimEdges (killed : Player) (kp : Option Player)
    (ts : List Target) : List Target :=
  let ts2 := mapStatus (fun t =>
    if t.targetId == killed.id && t.status == TargetStatus.PENDING
    then TargetStatus.EXPIRED else t.status) ts
  let ts3 := mapStatus (fun t =>
    if t.playerId == killed.id && t.status == TargetStatus.PENDING
    then TargetStatus.EXPIRED else t.status) ts2
  match kp with
  | none => ts3
  | some k => mapStatus (fun t =>
      if t.playerId == k.id && t.targetId == killed.id &&
         t.status == TargetStatus.PENDING
      then TargetStatus.EXPIRED else t.status) ts3

/-- The pre-existing target collection after all in-place status writes of
a successful `killTarget` run. -/
def oldTargetsAfterKill (g : GameState) (target : Target)
    (player killed : Player) : List Target :=
  expireVictimEdges killed (resolvedPartner (killedPlayers g killed) player)
    (completeTarget target g.targets)

/-- The `potentialTargets` of `killTarget`: ALIVE-or-SAFE players not on
the killer's team, computed over the post-kill player collection. -/
def potentialTargetsOf (players1 : List Player) (player : Player) :
    List Player :=
  (PlayerService.findByGameAndStatus players1
    [PlayerStatus.ALIVE, PlayerStatus.SAFE]).filter (fun p =>
      !((killerTeamIdsOf players1 player).contains p.id))

/-- The (fromPlayer, toPlayer) pairs of the new assignments `killTarget`
builds: the killer, then the live partner if any, each fanned out over
`potentialTargets`. -/
def newKillPairs (g : GameState) (player killed : Player) :
    List (Nat × Nat) :=
  let players1 := killedPlayers g killed
  let assigners : List Player :=
    [player] ++ (match resolvedPartner players1 player with
                 | some kp => [kp]
                 | none => [])
  assigners.flatMap (fun a =>
    (potentialTargetsOf players1 player).map (fun q => (a.id, q.id)))

/-- The new PENDING documents inserted by `killTarget`, with fresh ids. -/
def newKillDocs (g : GameState) (player killed : Player) : List Target :=
  (newKillPairs g player killed).enum.map (fun kpq =>
    { id := g.nextId + kpq.1, playerId := kpq.2.1, targetId := kpq.2.2,
      status := TargetStatus.PENDING })

/-- The write phase of `TargetService.killTarget`, after every guard has
passed: mark the victim KILLED, complete the consumed assignment, expire
every PENDING edge naming the victim (plus the killer-partner edge onto the
victim), and insert a fresh PENDING fan-out from the killer (and the alive
partner) to every ALIVE-or-SAFE player outside the killer's team.  The
game-completion check of source lines 368–391 is commented out there, so
the game status is left untouched. -/
def killTargetResolve (g : GameState) (target : Target)
    (player killed : Player) : GameState :=
  { gameStatus := g.gameStatus,
    players := killedPlayers g killed,
    targets := oldTargetsAfterKill g target player killed ++
      newKillDocs g player killed,
    nextId := g.nextId + (newKillPairs g player killed).length }

/-- `TargetService.killTarget`: the guard cascade of the source, then the
write phase.  `role` stands for the externally resolved
`PlayerService.getRole` result; the game-registry lookup always succeeds in
the single-game model. -/
def killTarget (role : PlayerRole) (tid : Nat) (g : GameState) :
    GameState × Option ServiceError :=
  if role ≠ PlayerRole.ADMIN then (g, some ServiceError.playerRoleUnauthorized)
  else
    match TargetService.findById g.targets tid with
    | Except.error e => (g, some e)
    | Except.ok none => (g, some (ServiceError.targetNotFound tid))
    | Except.ok (some target) =>
      if target.status ≠ TargetStatus.PENDING then
        (g, some (ServiceError.targetStatusNotValid tid target.status))
      else
        match PlayerService.findById g.players target.playerId with
        | Except.error e => (g, some e)
        | Except.ok none =>
          (g, some (ServiceError.playerStatusNotValid target.playerId))
        | Except.ok (some player) =>
          match PlayerService.findById g.players target.targetId with
          | Except.error e => (g, some e)
          | Except.ok none =>
            (g, some (ServiceError.playerStatusNotValid target.targetId))
          | Except.ok (some killed) =>
            if player.status ≠ PlayerStatus.ALIVE then
              (g, some (ServiceError.playerStatusNotValid target.playerId))
            else if killed.status ≠ PlayerStatus.ALIVE then
              (g, some (ServiceError.playerStatusNotValid target.targetId))
            else
              (killTargetResolve g target player killed, none)

/-- `TargetService.makePlayerSafe`: admins toggle a player between ALIVE
and SAFE; any other status is rejected.  A lookup that resolves `undefined`
makes the subsequent `player.status` dereference raise a `TypeError`. -/
def makePlayerSafe (role : PlayerRole) (pid : Nat) (g : GameState) :
    GameState × Option ServiceError :=
  if role ≠ PlayerRole.ADMIN then (g, some ServiceError.playerRoleUnauthorized)
  else
    match PlayerService.findById g.players pid with
    | Except.error e => (g, some e)
    | Except.ok none => (g, some ServiceError.jsTypeError)
    | Except.ok (some player) =>
      if player.status ≠ PlayerStatus.ALIVE ∧ player.status ≠ PlayerStatus.SAFE
      then (g, some (ServiceError.playerStatusNotValid pid))
      else
        let newStatus := if player.status = PlayerStatus.ALIVE
          then PlayerStatus.SAFE else PlayerStatus.ALIVE
        ({ g with players := g.players.map (fun p =>
            if p.id == pid then { p with status := newStatus } else p) }, none)

/-- Number of PENDING assignments whose `fromPlayer` is `pid`: the quantity
bounded by the spec's single-active-target invariant. -/
def pendingFromCount (g : GameState) (pid : Nat) : Nat :=
  (g.targets.filter (fun t =>
    t.playerId == pid && t.status == TargetStatus.PENDING)).length

/-! ### Basic lemmas about the embedded primitives -/

theorem playerFindById_eq (players : List Player) (pid : Nat) :
    PlayerService.findById players pid =
      Except.ok ((players.filter (fun p => p.id == pid)).head?) := rfl

theorem targetFindById_eq (targets : List Target) (tid : Nat) :
    TargetService.findById targets tid =
      Except.ok ((targets.filter (fun t => t.id == tid)).head?) := rfl

theorem head?_mem {α : Type} {l : List α} {a : α} (h : l.head? = some a) :
    a ∈ l := by
  cases l with
  | nil => simp at h
  | cons b l => simp at h; simp [h]

theorem playerFindById_some {players : List Player} {pid : Nat} {p : Player}
    (h : PlayerService.findById players pid = Except.ok (some p)) :
    p ∈ players ∧ p.id = pid := by
  rw [playerFindById_eq] at h
  have h' := head?_mem (Except.ok.inj h)
  rcases List.mem_filter.mp h' with ⟨hm, hb⟩
  exact ⟨hm, by simpa using hb⟩

theorem targetFindById_some {targets : List Target} {tid : Nat} {a : Target}
    (h : TargetService.findById targets tid = Except.ok (some a)) :
    a ∈ targets ∧ a.id = tid := by
  rw [targetFindById_eq] at h
  have h' := head?_mem (Except.ok.inj h)
  rcases List.mem_filter.mp h' with ⟨hm, hb⟩
  exact ⟨hm, by simpa using hb⟩

theorem length_mapStatus (f : Target → TargetStatus) (ts : List Target) :
    (mapStatus f ts).length = ts.length := List.length_map ts _

theorem filter_id_mapStatus (f : Target → TargetStatus) (ts : List Target)
    (x : Nat) :
    (mapStatus f ts).filter (fun t => t.id == x) =
      (ts.filter (fun t => t.id == x)).map
        (fun t => { t with status := f t }) := by
  simpa [mapStatus] using
    @List.filter_map Target Target (fun t : Target => t.id == x)
      (fun t : Target => { t with status := f t }) ts

/-- Every successful `killTarget` run passed the whole guard cascade, and
its final state is the write phase applied to the looked-up documents. -/
theorem killTarget_ok_elim {role : PlayerRole} {tid : Nat} {g s' : GameState}
    (h : killTarget role tid g = (s', none)) :
    ∃ target player killed,
      TargetService.findById g.targets tid = Except.ok (some target) ∧
      target.status = TargetStatus.PENDING ∧
      PlayerService.findById g.players target.playerId
        = Except.ok (some player) ∧
      PlayerService.findById g.players target.targetId
        = Except.ok (some killed) ∧
      player.status = PlayerStatus.ALIVE ∧
      killed.status = PlayerStatus.ALIVE ∧
      s' = killTargetResolve g target player killed := by
  unfold killTarget at h
  split at h
  · simp at h
  · split at h
    · simp at h
    · simp at h
    · rename_i target heq
      split at h
      · simp at h
      · rename_i hpend
        split at h
        · simp at h
        · simp at h
        · rename_i player hplayer
          split at h
          · simp at h
          · simp at h
          · rename_i killed hkilled
            split at h
            · simp at h
            · split at h
              · simp at h
              · rename_i hps hks
                refine ⟨target, player, killed, heq, ?_, hplayer, hkilled,
                  ?_, ?_, ?_⟩
                · exact not_not.mp hpend
                · exact not_not.mp hps
                · exact not_not.mp hks
                · exact (Prod.mk.injEq _ _ _ _ ▸ h).1.symm

theorem filter_append_head?_left {p : Target → Bool} {ts1 : List Target}
    (ts2 : List Target) {a : Target} (h : (ts1.filter p).head? = some a) :
    (((ts1 ++ ts2).filter p)).head? = some a := by
  rw [List.filter_append]
  cases hq : ts1.filter p with
  | nil => rw [hq] at h; simp at h
  | cons b l => rw [hq] at h; simp at h; simp [hq, h]

/-- After the in-place writes of a successful kill, the first stored target
carrying the consumed assignment's id has status COMPLETE. -/
theorem oldTargetsAfterKill_head_complete (g : GameState) (a : Target)
    (player killed : Player)
    (hhead : (g.targets.filter (fun t => t.id == a.id)).head? = some a) :
    ((oldTargetsAfterKill g a player killed).filter
      (fun t => t.id == a.id)).head?
        = some { a with status := TargetStatus.COMPLETE } := by
  unfold oldTargetsAfterKill expireVictimEdges completeTarget
  cases hkp : resolvedPartner (killedPlayers g killed) player with
  | none =>
    simp only [hkp, filter_id_mapStatus, List.head?_map, hhead,
      Option.map_some']
    simp
  | some k =>
    simp only [hkp, filter_id_mapStatus, List.head?_map, hhead,
      Option.map_some']
    simp

/-- The composite effect of the four in-place status writes of a
successful kill on one stored target. -/
def killEdgeUpdate (a : Target) (killed : Player) (kp : Option Player)
    (t : Target) : Target :=
  let t1 : Target :=
    { t with status := if t.id == a.id then TargetStatus.COMPLETE
                       else t.status }
  let t2 : Target :=
    { t1 with status := if t1.targetId == killed.id &&
        t1.status == TargetStatus.PENDING then TargetStatus.EXPIRED
      else t1.status }
  let t3 : Target :=
    { t2 with status := if t2.playerId == killed.id &&
        t2.status == TargetStatus.PENDING then TargetStatus.EXPIRED
      else t2.status }
  match kp with
  | none => t3
  | some k =>
    { t3 with status := if t3.playerId == k.id &&
        t3.targetId == killed.id && t3.status == TargetStatus.PENDING
      then TargetStatus.EXPIRED else t3.status }

theorem oldTargetsAfterKill_eq_map (g : GameState) (a : Target)
    (player killed : Player) :
    oldTargetsAfterKill g a player killed =
      g.targets.map (killEdgeUpdate a killed
        (resolvedPartner (killedPlayers g killed) player)) := by
  unfold oldTargetsAfterKill expireVictimEdges completeTarget mapStatus
  cases resolvedPartner (killedPlayers g killed) player with
  | none =>
    simp only [List.map_map]
    refine List.map_congr_left (fun t _ => ?_)
    simp [killEdgeUpdate, Function.comp]
  | some k =>
    simp only [List.map_map]
    refine List.map_congr_left (fun t _ => ?_)
    simp [killEdgeUpdate, Function.comp]

theorem oldTargetsAfterKill_length (g : GameState) (a : Target)
    (player killed : Player) :
    (oldTargetsAfterKill g a player killed).length = g.targets.length := by
  rw [oldTargetsAfterKill_eq_map]
  exact List.length_map _ _

theorem killEdgeUpdate_fields (a : Target) (killed : Player)
    (kp : Option Player) (t : Target) :
    (killEdgeUpdate a killed kp t).id = t.id ∧
    (killEdgeUpdate a killed kp t).playerId = t.playerId ∧
    (killEdgeUpdate a killed kp t).targetId = t.targetId := by
  cases kp with
  | none => exact ⟨rfl, rfl, rfl⟩
  | some k => exact ⟨rfl, rfl, rfl⟩

theorem killEdgeUpdate_complete (a : Target) (killed : Player)
    (kp : Option Player) (t : Target) (h : t.id = a.id) :
    (killEdgeUpdate a killed kp t).status = TargetStatus.COMPLETE := by
  cases kp with
  | none => simp [killEdgeUpdate, h]
  | some k => simp [killEdgeUpdate, h]

theorem killEdgeUpdate_expire (a : Target) (killed : Player)
    (kp : Option Player) (t : Target) (hid : t.id ≠ a.id)
    (hpend : t.status = TargetStatus.PENDING)
    (hnames : t.playerId = killed.id ∨ t.targetId = killed.id) :
    (killEdgeUpdate a killed kp t).status = TargetStatus.EXPIRED := by
  by_cases hto : t.targetId = killed.id
  · cases kp with
    | none => simp [killEdgeUpdate, hid, hpend, hto]
    | some k => simp [killEdgeUpdate, hid, hpend, hto]
  · have hfrom : t.playerId = killed.id := by
      rcases hnames with h | h
      · exact h
      · exact absurd h hto
    cases kp with
    | none => simp [killEdgeUpdate, hid, hpend, hto, hfrom]
    | some k => simp [killEdgeUpdate, hid, hpend, hto, hfrom]

theorem killEdgeUpdate_frame (a : Target) (killed : Player)
    (kp : Option Player) (t : Target) (hid : t.id ≠ a.id)
    (hfrom : t.playerId ≠ killed.id) (hto : t.targetId ≠ killed.id) :
    killEdgeUpdate a killed kp t = t := by
  cases kp with
  | none => simp [killEdgeUpdate, hid, hfrom, hto]
  | some k => simp [killEdgeUpdate, hid, hfrom, hto]

theorem mem_enum_snd {α : Type} {x : Nat × α} {l : List α}
    (h : x ∈ l.enum) : x.2 ∈ l := by
  rw [List.enum_eq_zip_range] at h
  cases x with
  | mk i a => exact (List.of_mem_zip h).2

theorem exists_mem_enum {α : Type} {a : α} {l : List α} (h : a ∈ l) :
    ∃ i, (i, a) ∈ l.enum := by
  obtain ⟨n, hn, rfl⟩ := List.mem_iff_getElem.mp h
  refine ⟨n, ?_⟩
  have hlen : n < l.enum.length := by simpa using hn
  have he : l.enum[n] = (n, l[n]) := List.getElem_enum _ _ _
  rw [← he]
  exact List.getElem_mem _

theorem mem_potentialTargetsOf {p1 : List Player} {player q : Player} :
    q ∈ potentialTargetsOf p1 player ↔
      q ∈ p1 ∧ (q.status = PlayerStatus.ALIVE ∨ q.status = PlayerStatus.SAFE) ∧
        q.id ∉ killerTeamIdsOf p1 player := by
  unfold potentialTargetsOf PlayerService.findByGameAndStatus
  simp [List.mem_filter, and_assoc]
  tauto

/-- Membership characterization of the fan-out pairs a successful kill
builds. -/
theorem mem_newKillPairs {g : GameState} {player killed : Player}
    {pq : Nat × Nat} :
    pq ∈ newKillPairs g player killed ↔
      ∃ q ∈ potentialTargetsOf (killedPlayers g killed) player,
        (pq = (player.id, q.id) ∨
          ∃ kp, resolvedPartner (killedPlayers g killed) player = some kp ∧
            pq = (kp.id, q.id)) := by
  unfold newKillPairs
  cases hkp : resolvedPartner (killedPlayers g killed) player with
  | none =>
    simp only [hkp, List.singleton_append, List.flatMap_cons,
      List.flatMap_nil, List.append_nil, List.mem_map]
    constructor
    · rintro ⟨q, hq, rfl⟩
      exact ⟨q, hq, Or.inl rfl⟩
    · rintro ⟨q, hq, h | ⟨kp, hkp2, h⟩⟩
      · exact ⟨q, hq, h.symm⟩
      · simp at hkp2
  | some kp =>
    simp only [hkp, List.singleton_append, List.flatMap_cons,
      List.flatMap_nil, List.append_nil, List.mem_append, List.mem_map]
    constructor
    · rintro (⟨q, hq, rfl⟩ | ⟨q, hq, rfl⟩)
      · exact ⟨q, hq, Or.inl rfl⟩
      · exact ⟨q, hq, Or.inr ⟨kp, rfl, rfl⟩⟩
    · rintro ⟨q, hq, h | ⟨kp2, hkp2, h⟩⟩
      · exact Or.inl ⟨q, hq, h.symm⟩
      · rw [Option.some.injEq] at hkp2
        exact Or.inr ⟨q, hq, by rw [hkp2]; exact h.symm⟩

/-- Every fan-out pair appears in the inserted documents, with status
PENDING. -/
theorem newKillPairs_to_doc {g : GameState} {player killed : Player}
    {pq : Nat × Nat} (h : pq ∈ newKillPairs g player killed) :
    ∃ e ∈ newKillDocs g player killed,
      e.playerId = pq.1 ∧ e.targetId = pq.2 ∧
      e.status = TargetStatus.PENDING := by
  obtain ⟨i, hi⟩ := exists_mem_enum h
  refine ⟨⟨g.nextId + i, pq.1, pq.2, TargetStatus.PENDING⟩, ?_, rfl, rfl, rfl⟩
  unfold newKillDocs
  exact List.mem_map_of_mem _ hi

/-- Conversely, every inserted document comes from a fan-out pair. -/
theorem newKillDocs_from_pair {g : GameState} {player killed : Player}
    {e : Target} (h : e ∈ newKillDocs g player killed) :
    (e.playerId, e.targetId) ∈ newKillPairs g player killed ∧
      e.status = TargetStatus.PENDING := by
  unfold newKillDocs at h
  obtain ⟨kpq, hk, rfl⟩ := List.mem_map.mp h
  exact ⟨mem_enum_snd hk, rfl⟩

theorem newKillDocs_id_ge (g : GameState) (player killed : Player) :
    ∀ e ∈ newKillDocs g player killed, g.nextId ≤ e.id := by
  intro e he
  unfold newKillDocs at he
  obtain ⟨kpq, _, rfl⟩ := List.mem_map.mp he
  exact Nat.le_add_right _ _

/-! ### The grouping loop of `matchPlayers` partitions the eligible ids -/

/-- Invariant carried through the grouping loop of `matchPlayers`:
`grouped` (the accumulator's second component) lists exactly the ids
already placed into `validTeams`, without duplicates; teams have at most
two members; every processed player is grouped; and each grouped id
entered either as a processed player that dragged its eligible partner in
with it, or as the partner of a processed, grouped player. -/
def GroupInv (eligible pre : List Player)
    (acc : List (List Nat) × List Nat) : Prop :=
  acc.2 = acc.1.flatten ∧
  acc.2.Nodup ∧
  (∀ t ∈ acc.1, t.length ≤ 2) ∧
  (∀ p ∈ pre, p.id ∈ acc.2) ∧
  (∀ x ∈ acc.2,
    (∃ b ∈ pre, b.id = x ∧
      ∀ pid, b.teamPartnerId = some pid →
        (∃ c ∈ eligible, c.id = pid) → pid ∈ acc.2) ∨
    (∃ b ∈ pre, b.teamPartnerId = some x ∧ b.id ∈ acc.2))

theorem groupStep_inv (eligible pre : List Player) (p : Player)
    (acc : List (List Nat) × List Nat)
    (hsym : ∀ a ∈ eligible, ∀ b ∈ eligible,
      a.teamPartnerId = some b.id → b.teamPartnerId = some a.id)
    (hirr : ∀ a ∈ eligible, a.teamPartnerId ≠ some a.id)
    (hpre : ∀ b ∈ pre, b ∈ eligible)
    (hp : p ∈ eligible)
    (hinv : GroupInv eligible pre acc) :
    GroupInv eligible (pre ++ [p]) (groupStep eligible acc p) := by
  obtain ⟨hflat, hnd, hsz, hall, horigin⟩ := hinv
  unfold groupStep
  by_cases hgp : acc.2.contains p.id = true
  · rw [if_pos hgp]
    have hpg : p.id ∈ acc.2 := by simpa using hgp
    refine ⟨hflat, hnd, hsz, ?_, ?_⟩
    · intro b hb
      rcases List.mem_append.mp hb with hb | hb
      · exact hall b hb
      · rw [List.mem_singleton.mp hb]
        exact hpg
    · intro x hx
      rcases horigin x hx with ⟨b, hb, h1, h2⟩ | ⟨b, hb, h1, h2⟩
      · exact Or.inl ⟨b, List.mem_append_left _ hb, h1, h2⟩
      · exact Or.inr ⟨b, List.mem_append_left _ hb, h1, h2⟩
  · rw [if_neg hgp]
    have hpg : p.id ∉ acc.2 := by
      intro hmem
      exact hgp (by simpa using hmem)
    cases hpart : p.teamPartnerId with
    | none =>
      refine ⟨?_, ?_, ?_, ?_, ?_⟩
      · simp [hflat]
      · simp [List.nodup_append, hnd, hpg]
      · intro t ht
        rcases List.mem_append.mp ht with ht | ht
        · exact hsz t ht
        · rw [List.mem_singleton.mp ht]
          simp
      · intro b hb
        rcases List.mem_append.mp hb with hb | hb
        · exact List.mem_append_left _ (hall b hb)
        · rw [List.mem_singleton.mp hb]
          simp
      · intro x hx
        rcases List.mem_append.mp hx with hx | hx
        · rcases horigin x hx with ⟨b, hb, h1, h2⟩ | ⟨b, hb, h1, h2⟩
          · refine Or.inl ⟨b, List.mem_append_left _ hb, h1, ?_⟩
            intro pid hpid hc
            exact List.mem_append_left _ (h2 pid hpid hc)
          · exact Or.inr ⟨b, List.mem_append_left _ hb, h1,
              List.mem_append_left _ h2⟩
        · rw [List.mem_singleton.mp hx]
          refine Or.inl ⟨p, List.mem_append_right _ (List.mem_singleton.mpr rfl),
            rfl, ?_⟩
          intro pid hpid _
          rw [hpart] at hpid
          cases hpid
    | some pid =>
      dsimp only
      by_cases hel : eligible.any (fun q => q.id == pid) = true
      · rw [if_pos hel]
        obtain ⟨qq, hqq, hqqid⟩ := List.any_eq_true.mp hel
        have hqqid : qq.id = pid := by simpa using hqqid
        have hsymp : qq.teamPartnerId = some p.id :=
          hsym p hp qq hqq (by rw [hqqid]; exact hpart)
        have hne : p.id ≠ pid := by
          intro hEq
          exact hirr p hp (by rw [hpart, hEq])
        have hpidnot : pid ∉ acc.2 := by
          intro hpidin
          rcases horigin pid hpidin with ⟨b, hbpre, hbid, hbclose⟩ |
            ⟨b, hbpre, hbpart, hbidin⟩
          · have hbp : b.teamPartnerId = some p.id :=
              hsym p hp b (hpre b hbpre) (by rw [hbid]; exact hpart)
            exact hpg (hbclose p.id hbp ⟨p, hp, rfl⟩)
          · have h1 : qq.teamPartnerId = some b.id :=
              hsym b (hpre b hbpre) qq hqq (by rw [hqqid]; exact hbpart)
            have h2 : b.id = p.id := by
              rw [h1] at hsymp
              exact Option.some.inj hsymp
            rw [h2] at hbidin
            exact hpg hbidin
        refine ⟨?_, ?_, ?_, ?_, ?_⟩
        · simp [hflat]
        · simp [List.nodup_append, hnd, hpg, hpidnot, hne]
        · intro t ht
          rcases List.mem_append.mp ht with ht | ht
          · exact hsz t ht
          · rw [List.mem_singleton.mp ht]
            simp
        · intro b hb
          rcases List.mem_append.mp hb with hb | hb
          · exact List.mem_append_left _ (hall b hb)
          · rw [List.mem_singleton.mp hb]
            simp
        · intro x hx
          rcases List.mem_append.mp hx with hx | hx
          · rcases horigin x hx with ⟨b, hb, h1, h2⟩ | ⟨b, hb, h1, h2⟩
            · refine Or.inl ⟨b, List.mem_append_left _ hb, h1, ?_⟩
              intro pid' hpid' hc
              exact List.mem_append_left _ (h2 pid' hpid' hc)
            · exact Or.inr ⟨b, List.mem_append_left _ hb, h1,
                List.mem_append_left _ h2⟩
          · rcases List.mem_cons.mp hx with hx | hx
            · rw [hx]
              refine Or.inl ⟨p,
                List.mem_append_right _ (List.mem_singleton.mpr rfl), rfl, ?_⟩
              intro pid' hpid' _
              rw [hpart] at hpid'
              rw [← Option.some.inj hpid']
              exact List.mem_append_right _ (by simp)
            · rw [List.mem_singleton.mp hx]
              exact Or.inr ⟨p,
                List.mem_append_right _ (List.mem_singleton.mpr rfl), hpart,
                List.mem_append_right _ (by simp)⟩
      · rw [if_neg hel]
        refine ⟨?_, ?_, ?_, ?_, ?_⟩
        · simp [hflat]
        · simp [List.nodup_append, hnd, hpg]
        · intro t ht
          rcases List.mem_append.mp ht with ht | ht
          · exact hsz t ht
          · rw [List.mem_singleton.mp ht]
            simp
        · intro b hb
          rcases List.mem_append.mp hb with hb | hb
          · exact List.mem_append_left _ (hall b hb)
          · rw [List.mem_singleton.mp hb]
            simp
        · intro x hx
          rcases List.mem_append.mp hx with hx | hx
          · rcases horigin x hx with ⟨b, hb, h1, h2⟩ | ⟨b, hb, h1, h2⟩
            · refine Or.inl ⟨b, List.mem_append_left _ hb, h1, ?_⟩
              intro pid' hpid' hc
              exact List.mem_append_left _ (h2 pid' hpid' hc)
            · exact Or.inr ⟨b, List.mem_append_left _ hb, h1,
                List.mem_append_left _ h2⟩
          · rw [List.mem_singleton.mp hx]
            refine Or.inl ⟨p,
              List.mem_append_right _ (List.mem_singleton.mpr rfl), rfl, ?_⟩
            intro pid' hpid' hc
            rw [hpart] at hpid'
            rw [← Option.some.inj hpid'] at hc
            obtain ⟨c, hc1, hc2⟩ := hc
            exact absurd (List.any_eq_true.mpr ⟨c, hc1, by simp [hc2]⟩) hel

theorem groupFold_inv (eligible : List Player)
    (hsym : ∀ a ∈ eligible, ∀ b ∈ eligible,
      a.teamPartnerId = some b.id → b.teamPartnerId = some a.id)
    (hirr : ∀ a ∈ eligible, a.teamPartnerId ≠ some a.id) :
    ∀ (rest pre : List Player) (acc : List (List Nat) × List Nat),
      (∀ b ∈ pre, b ∈ eligible) → (∀ b ∈ rest, b ∈ eligible) →
      GroupInv eligible pre acc →
      GroupInv eligible (pre ++ rest)
        (rest.foldl (groupStep eligible) acc) := by
  intro rest
  induction rest with
  | nil =>
    intro pre acc _ _ hinv
    simpa using hinv
  | cons p rest ih =>
    intro pre acc hpre hrest hinv
    have hp : p ∈ eligible := hrest p (List.mem_cons_self _ _)
    have hstep := groupStep_inv eligible pre p acc hsym hirr hpre hp hinv
    have hpre' : ∀ b ∈ pre ++ [p], b ∈ eligible := by
      intro b hb
      rcases List.mem_append.mp hb with hb | hb
      · exact hpre b hb
      · rw [List.mem_singleton.mp hb]
        exact hp
    have hrest' : ∀ b ∈ rest, b ∈ eligible := fun b hb =>
      hrest b (List.mem_cons_of_mem _ hb)
    have := ih (pre ++ [p]) (groupStep eligible acc p) hpre' hrest' hstep
    simpa [List.append_assoc] using this

/-- Under symmetric, irreflexive partner links among the eligible players,
the teams `matchPlayers` computes partition the eligible ids: no id occurs
twice across `validTeams`, and every team has at most two members. -/
theorem computeValidTeams_partition (players : List Player)
    (hsym : ∀ a ∈ players, ∀ b ∈ players,
      a.teamPartnerId = some b.id → b.teamPartnerId = some a.id)
    (hirr : ∀ a ∈ players, a.teamPartnerId ≠ some a.id) :
    (computeValidTeams players).flatten.Nodup ∧
    ∀ t ∈ computeValidTeams players, t.length ≤ 2 := by
  have h0 : GroupInv players [] ([], []) := by
    refine ⟨rfl, List.nodup_nil, ?_, ?_, ?_⟩
    · intro t ht
      simp at ht
    · intro p hp
      simp at hp
    · intro x hx
      simp at hx
  have hinv := groupFold_inv players hsym hirr players [] ([], [])
    (by intro b hb; simp at hb) (fun b hb => hb) h0
  obtain ⟨hflat, hnd, hsz, -, -⟩ := hinv
  exact ⟨hflat ▸ hnd, hsz⟩

/-! ### Counting the outgoing PENDING edges `buildTargetDocs` creates -/

theorem countP_enumFrom {α : Type} (q : α → Bool) (n : Nat) (l : List α) :
    (List.enumFrom n l).countP (fun x => q x.2) = l.countP q := by
  induction l generalizing n with
  | nil => rfl
  | cons a l ih => simp [List.enumFrom, List.countP_cons, ih]

theorem countP_fanout (cur tgt : List Nat) (pid : Nat) :
    ((cur.flatMap (fun p => tgt.map (fun q => (p, q)))).countP
      (fun pq => pq.1 == pid)) = cur.count pid * tgt.length := by
  induction cur with
  | nil => simp
  | cons a cur ih =>
    rw [List.flatMap_cons, List.countP_append, ih, List.count_cons]
    have hmap : ((tgt.map (fun q => (a, q))).countP
        (fun pq => pq.1 == pid)) = if a = pid then tgt.length else 0 := by
      rw [List.countP_map]
      by_cases ha : a = pid
      · simp [ha, Function.comp]
      · simp [ha, Function.comp]
    rw [hmap]
    by_cases ha : a = pid
    · simp [ha]
      ring
    · simp [ha]

theorem sum_range_count (teams : List (List Nat)) (pid : Nat) :
    ((List.range teams.length).map
      (fun i => (teams.getD i []).count pid)).sum
      = teams.flatten.count pid := by
  induction teams with
  | nil => rfl
  | cons t ts ih =>
    rw [List.length_cons, List.range_succ_eq_map, List.map_cons,
      List.map_map]
    have hmap : (List.map
        ((fun i => ((t :: ts).getD i []).count pid) ∘ Nat.succ)
        (List.range ts.length))
        = List.map (fun i => (ts.getD i []).count pid)
            (List.range ts.length) :=
      List.map_congr_left (fun i _ => rfl)
    rw [hmap, List.sum_cons, ih, List.flatten_cons, List.count_append]
    rfl

theorem countP_circularPairs (teams : List (List Nat)) (pid : Nat) :
    (circularPairs teams).countP (fun pq => pq.1 == pid)
      = ((List.range teams.length).map (fun i =>
          (teams.getD i []).count pid *
          (teams.getD ((i + 1) % teams.length) []).length)).sum := by
  unfold circularPairs
  rw [List.flatMap_def, List.countP_flatten, List.map_map]
  refine congrArg List.sum (List.map_congr_left (fun i _ => ?_))
  exact countP_fanout _ _ _

/-- Whenever the team list partitions its ids (no id twice across teams)
and every team has at most two members, each player receives at most two
outgoing edges from the circular generator. -/
theorem buildTargetDocs_pending_from_le_two (startId : Nat)
    (teams : List (List Nat)) (pid : Nat)
    (hnd : teams.flatten.Nodup) (hsz : ∀ t ∈ teams, t.length ≤ 2) :
    ((buildTargetDocs startId teams).countP (fun t =>
      t.playerId == pid && t.status == TargetStatus.PENDING)) ≤ 2 := by
  unfold buildTargetDocs
  rw [List.countP_map]
  have h1 : (List.countP ((fun t : Target => t.playerId == pid &&
      t.status == TargetStatus.PENDING) ∘ (fun kpq : Nat × (Nat × Nat) =>
        { id := startId + kpq.1, playerId := kpq.2.1, targetId := kpq.2.2,
          status := TargetStatus.PENDING }))
      (circularPairs teams).enum)
      = (circularPairs teams).countP (fun pq => pq.1 == pid) := by
    have h2 : (List.countP (fun x : Nat × (Nat × Nat) =>
        (fun pq : Nat × Nat => pq.1 == pid) x.2)
        (List.enumFrom 0 (circularPairs teams)))
        = (circularPairs teams).countP (fun pq => pq.1 == pid) :=
      countP_enumFrom (fun pq : Nat × Nat => pq.1 == pid) 0
        (circularPairs teams)
    refine Eq.trans ?_ h2
    refine congrArg₂ List.countP ?_ rfl
    funext kpq
    simp [Function.comp]
  rw [h1, countP_circularPairs]
  have hle : ((List.range teams.length).map (fun i =>
      (teams.getD i []).count pid *
      (teams.getD ((i + 1) % teams.length) []).length)).sum ≤
      ((List.range teams.length).map (fun i =>
        (teams.getD i []).count pid * 2)).sum := by
    refine List.sum_le_sum (fun i hi => ?_)
    have hin : i < teams.length := by simpa using List.mem_range.mp hi
    have hpos : 0 < teams.length := Nat.lt_of_le_of_lt (Nat.zero_le i) hin
    have hmod : (i + 1) % teams.length < teams.length :=
      Nat.mod_lt _ hpos
    have hmem : teams.getD ((i + 1) % teams.length) [] ∈ teams := by
      rw [List.getD_eq_getElem _ _ hmod]
      exact List.getElem_mem _
    exact Nat.mul_le_mul_left _ (hsz _ hmem)
  refine le_trans hle ?_
  rw [List.sum_map_mul_right, sum_range_count]
  have hcount : teams.flatten.count pid ≤ 1 :=
    List.nodup_iff_count_le_one.mp hnd pid
  omega

/-! ### Concrete game states used by the counterexamples and witnesses -/

/-- Four solo players `1,2,3,4` targeting each other in a cycle
`1→2→3→4→1`; every assignment PENDING. -/
def fourSoloCycle : GameState :=
  { gameStatus := GameStatus.IN_PROGRESS,
    players := [⟨1, PlayerStatus.ALIVE, none⟩, ⟨2, PlayerStatus.ALIVE, none⟩,
                ⟨3, PlayerStatus.ALIVE, none⟩, ⟨4, PlayerStatus.ALIVE, none⟩],
    targets := [⟨10, 1, 2, TargetStatus.PENDING⟩,
                ⟨11, 2, 3, TargetStatus.PENDING⟩,
                ⟨12, 3, 4, TargetStatus.PENDING⟩,
                ⟨13, 4, 1, TargetStatus.PENDING⟩],
    nextId := 100 }

/-- The spec's Scenario A/B state: teams `{1,2}` and `{3,4}` with the full
eight-edge cross fan-out between them. -/
def scenarioB : GameState :=
  { gameStatus := GameStatus.IN_PROGRESS,
    players := [⟨1, PlayerStatus.ALIVE, some 2⟩, ⟨2, PlayerStatus.ALIVE, some 1⟩,
                ⟨3, PlayerStatus.ALIVE, some 4⟩, ⟨4, PlayerStatus.ALIVE, some 3⟩],
    targets := [⟨20, 1, 3, TargetStatus.PENDING⟩, ⟨21, 1, 4, TargetStatus.PENDING⟩,
                ⟨22, 2, 3, TargetStatus.PENDING⟩, ⟨23, 2, 4, TargetStatus.PENDING⟩,
                ⟨24, 3, 1, TargetStatus.PENDING⟩, ⟨25, 3, 2, TargetStatus.PENDING⟩,
                ⟨26, 4, 1, TargetStatus.PENDING⟩, ⟨27, 4, 2, TargetStatus.PENDING⟩],
    nextId := 100 }

/-- The spec's Scenario A input: two partnered pairs, no assignments yet. -/
def scenarioA : GameState :=
  { gameStatus := GameStatus.SETUP,
    players := [⟨1, PlayerStatus.ALIVE, some 2⟩, ⟨2, PlayerStatus.ALIVE, some 1⟩,
                ⟨3, PlayerStatus.ALIVE, some 4⟩, ⟨4, PlayerStatus.ALIVE, some 3⟩],
    targets := [], nextId := 0 }

/-- A game with a single solo ALIVE player: exactly one team. -/
def singleSolo : GameState :=
  { gameStatus := GameStatus.SETUP,
    players := [⟨1, PlayerStatus.ALIVE, none⟩],
    targets := [], nextId := 0 }

/-- Two solo players hunting each other; killing either leaves exactly one
team with a live member. -/
def twoSolo : GameState :=
  { gameStatus := GameStatus.IN_PROGRESS,
    players := [⟨1, PlayerStatus.ALIVE, none⟩, ⟨2, PlayerStatus.ALIVE, none⟩],
    targets := [⟨10, 1, 2, TargetStatus.PENDING⟩,
                ⟨11, 2, 1, TargetStatus.PENDING⟩],
    nextId := 100 }

/-- Players in each of the four statuses, for the `makePlayerSafe` witness. -/
def toggleState : GameState :=
  { gameStatus := GameStatus.IN_PROGRESS,
    players := [⟨1, PlayerStatus.ALIVE, none⟩, ⟨2, PlayerStatus.SAFE, none⟩,
                ⟨3, PlayerStatus.KILLED, none⟩, ⟨4, PlayerStatus.DISQUALIFIED, none⟩],
    targets := [⟨10, 1, 2, TargetStatus.PENDING⟩],
    nextId := 100 }

/-! ### Claim C1 -/

/-- Claim C1, counterexample.  In `fourSoloCycle`, killing the solo player 2
through edge `1→2` is a full-team elimination, and the eliminated team's only
outgoing PENDING target is player 3; yet `killTarget` also inserts a new
PENDING edge `1→4`, so the new edges do not go exactly to the players the
eliminated team had been hunting. -/
theorem killTarget_not_only_hunted_counterexample :
    (∀ p ∈ fourSoloCycle.players, p.id = 2 → p.teamPartnerId = none) ∧
    (∀ e ∈ fourSoloCycle.targets, e.playerId = 2 → e.targetId = 3) ∧
    (killTarget PlayerRole.ADMIN 10 fourSoloCycle).2 = none ∧
    (∃ e ∈ (killTarget PlayerRole.ADMIN 10 fourSoloCycle).1.targets.drop
        fourSoloCycle.targets.length,
      e.playerId = 1 ∧ e.targetId = 4 ∧ e.status = TargetStatus.PENDING) := by
  decide

/-- Claim C1 (amended).  On a successful kill — full-team elimination
included — the inserted assignments are the full fan-out: every new edge is
PENDING, goes out from the killer or the killer's live partner, and points
at an ALIVE-or-SAFE player outside the killer's team; conversely every such
player receives a new edge from the killer (and from the live partner when
there is one).  The new edges are therefore not restricted to the players
the eliminated team had been hunting. -/
theorem killTarget_fanout_targets (g s' : GameState) (tid : Nat)
    (h : killTarget PlayerRole.ADMIN tid g = (s', none)) :
    ∃ a player,
      TargetService.findById g.targets tid = Except.ok (some a) ∧
      PlayerService.findById g.players a.playerId = Except.ok (some player) ∧
      (∀ e ∈ s'.targets.drop g.targets.length,
        e.status = TargetStatus.PENDING ∧
        (e.playerId = player.id ∨
          ∃ kp, resolvedPartner s'.players player = some kp ∧
            e.playerId = kp.id) ∧
        ∃ q ∈ s'.players, q.id = e.targetId ∧
          (q.status = PlayerStatus.ALIVE ∨ q.status = PlayerStatus.SAFE) ∧
          q.id ∉ killerTeamIdsOf s'.players player) ∧
      (∀ q ∈ s'.players,
        (q.status = PlayerStatus.ALIVE ∨ q.status = PlayerStatus.SAFE) →
        q.id ∉ killerTeamIdsOf s'.players player →
        (∃ e ∈ s'.targets.drop g.targets.length,
          e.playerId = player.id ∧ e.targetId = q.id ∧
          e.status = TargetStatus.PENDING) ∧
        ∀ kp, resolvedPartner s'.players player = some kp →
          ∃ e ∈ s'.targets.drop g.targets.length,
            e.playerId = kp.id ∧ e.targetId = q.id ∧
            e.status = TargetStatus.PENDING) := by
  obtain ⟨a, player, killed, ha, hpend, hp, hk, hps, hks, hres⟩ :=
    killTarget_ok_elim h
  have hsp : s'.players = killedPlayers g killed := by rw [hres]; rfl
  have hdrop : s'.targets.drop g.targets.length =
      newKillDocs g player killed := by
    rw [hres]
    show (oldTargetsAfterKill g a player killed ++
      newKillDocs g player killed).drop g.targets.length = _
    rw [← oldTargetsAfterKill_length g a player killed]
    exact List.drop_left _ _
  refine ⟨a, player, ha, hp, ?_, ?_⟩
  · intro e he
    rw [hdrop] at he
    obtain ⟨hpair, hstat⟩ := newKillDocs_from_pair he
    obtain ⟨q, hq, hc⟩ := mem_newKillPairs.mp hpair
    obtain ⟨hq1, hq2, hq3⟩ := mem_potentialTargetsOf.mp hq
    rw [hsp]
    have hfields : e.playerId = player.id ∧ e.targetId = q.id ∨
        ∃ kp, resolvedPartner (killedPlayers g killed) player = some kp ∧
          e.playerId = kp.id ∧ e.targetId = q.id := by
      rcases hc with hc | ⟨kp, hkp, hc⟩
      · rw [Prod.mk.injEq] at hc
        exact Or.inl hc
      · rw [Prod.mk.injEq] at hc
        exact Or.inr ⟨kp, hkp, hc⟩
    rcases hfields with ⟨h1, h2⟩ | ⟨kp, hkp, h1, h2⟩
    · exact ⟨hstat, Or.inl h1, q, hq1, h2.symm, hq2, hq3⟩
    · exact ⟨hstat, Or.inr ⟨kp, hkp, h1⟩, q, hq1, h2.symm, hq2, hq3⟩
  · intro q hq hstatus hnotin
    rw [hsp] at hq hnotin
    have hpot : q ∈ potentialTargetsOf (killedPlayers g killed) player :=
      mem_potentialTargetsOf.mpr ⟨hq, hstatus, hnotin⟩
    constructor
    · have hpair : (player.id, q.id) ∈ newKillPairs g player killed :=
        mem_newKillPairs.mpr ⟨q, hpot, Or.inl rfl⟩
      obtain ⟨e, he, h1, h2, h3⟩ := newKillPairs_to_doc hpair
      rw [hdrop]
      exact ⟨e, he, h1, h2, h3⟩
    · intro kp hkp
      rw [hsp] at hkp
      have hpair : (kp.id, q.id) ∈ newKillPairs g player killed :=
        mem_newKillPairs.mpr ⟨q, hpot, Or.inr ⟨kp, hkp, rfl⟩⟩
      obtain ⟨e, he, h1, h2, h3⟩ := newKillPairs_to_doc hpair
      rw [hdrop]
      exact ⟨e, he, h1, h2, h3⟩

/-- Claim C1, witness: the full-team elimination of solo player 2 in
`fourSoloCycle` through the edge `1→2`, where the fan-out theorem's
conclusions hold concretely. -/
theorem killTarget_fanout_targets_witness :
    killTarget PlayerRole.ADMIN 10 fourSoloCycle
      = ((killTarget PlayerRole.ADMIN 10 fourSoloCycle).1, none) ∧
    (∃ a player,
      TargetService.findById fourSoloCycle.targets 10
        = Except.ok (some a) ∧
      PlayerService.findById fourSoloCycle.players a.playerId
        = Except.ok (some player) ∧
      (∀ e ∈ (killTarget PlayerRole.ADMIN 10 fourSoloCycle).1.targets.drop
          fourSoloCycle.targets.length,
        e.status = TargetStatus.PENDING ∧
        (e.playerId = player.id ∨
          ∃ kp, resolvedPartner
              (killTarget PlayerRole.ADMIN 10 fourSoloCycle).1.players player
              = some kp ∧ e.playerId = kp.id) ∧
        ∃ q ∈ (killTarget PlayerRole.ADMIN 10 fourSoloCycle).1.players,
          q.id = e.targetId ∧
          (q.status = PlayerStatus.ALIVE ∨ q.status = PlayerStatus.SAFE) ∧
          q.id ∉ killerTeamIdsOf
            (killTarget PlayerRole.ADMIN 10 fourSoloCycle).1.players player) ∧
      (∀ q ∈ (killTarget PlayerRole.ADMIN 10 fourSoloCycle).1.players,
        (q.status = PlayerStatus.ALIVE ∨ q.status = PlayerStatus.SAFE) →
        q.id ∉ killerTeamIdsOf
          (killTarget PlayerRole.ADMIN 10 fourSoloCycle).1.players player →
        (∃ e ∈ (killTarget PlayerRole.ADMIN 10 fourSoloCycle).1.targets.drop
            fourSoloCycle.targets.length,
          e.playerId = player.id ∧ e.targetId = q.id ∧
          e.status = TargetStatus.PENDING) ∧
        ∀ kp, resolvedPartner
            (killTarget PlayerRole.ADMIN 10 fourSoloCycle).1.players player
            = some kp →
          ∃ e ∈ (killTarget PlayerRole.ADMIN 10 fourSoloCycle).1.targets.drop
              fourSoloCycle.targets.length,
            e.playerId = kp.id ∧ e.targetId = q.id ∧
            e.status = TargetStatus.PENDING)) :=
  ⟨by decide,
   killTarget_fanout_targets fourSoloCycle
     (killTarget PlayerRole.ADMIN 10 fourSoloCycle).1 10 (by decide)⟩

/-! ### Claim C2 -/

/-- Claim C2, counterexample.  Killing player 3 in `scenarioB` through edge
`1→3` is a partial elimination — the victim's partner 4 is still ALIVE
afterwards — yet `killTarget` inserts new assignments (the fan-out `1→4`,
`2→4`), so "no new TargetAssignment edges" is false. -/
theorem killTarget_partial_new_edges_counterexample :
    (killTarget PlayerRole.ADMIN 20 scenarioB).2 = none ∧
    (∃ p ∈ (killTarget PlayerRole.ADMIN 20 scenarioB).1.players,
      p.id = 4 ∧ p.status = PlayerStatus.ALIVE) ∧
    (killTarget PlayerRole.ADMIN 20 scenarioB).1.targets.drop
        scenarioB.targets.length ≠ [] := by
  decide

/-- Claim C2 (amended).  Even on a partial-team elimination (the victim's
partner is still ALIVE after the kill), `killTarget` inserts the full
fan-out of new PENDING edges — in particular one from the killer to every
ALIVE-or-SAFE player outside the killer's team, duplicating any surviving
edges — while every pre-existing edge of the killer that names neither the
victim nor the consumed assignment id survives completely unchanged (so a
PENDING one remains PENDING). -/
theorem killTarget_partial_frame_and_fanout (g s' : GameState) (tid : Nat)
    (h : killTarget PlayerRole.ADMIN tid g = (s', none)) :
    ∃ a player,
      TargetService.findById g.targets tid = Except.ok (some a) ∧
      PlayerService.findById g.players a.playerId = Except.ok (some player) ∧
      (∀ i, i < g.targets.length →
        (g.targets.getD i default).playerId = a.playerId →
        (g.targets.getD i default).id ≠ tid →
        (g.targets.getD i default).playerId ≠ a.targetId →
        (g.targets.getD i default).targetId ≠ a.targetId →
        s'.targets.getD i default = g.targets.getD i default) ∧
      ((∃ killedRec, PlayerService.findById g.players a.targetId
          = Except.ok (some killedRec) ∧
        ∃ vpid, killedRec.teamPartnerId = some vpid ∧
          ∃ vp ∈ s'.players, vp.id = vpid ∧
            vp.status = PlayerStatus.ALIVE) →
       ∀ q ∈ s'.players,
         (q.status = PlayerStatus.ALIVE ∨ q.status = PlayerStatus.SAFE) →
         q.id ∉ killerTeamIdsOf s'.players player →
         ∃ e ∈ s'.targets.drop g.targets.length,
           e.playerId = player.id ∧ e.targetId = q.id ∧
           e.status = TargetStatus.PENDING) := by
  obtain ⟨a, player, killed, ha, hpend, hp, hk, hps, hks, hres⟩ :=
    killTarget_ok_elim h
  obtain ⟨hamem, haid⟩ := targetFindById_some ha
  obtain ⟨hkmem, hkid⟩ := playerFindById_some hk
  have hsp : s'.players = killedPlayers g killed := by rw [hres]; rfl
  have hst : s'.targets = oldTargetsAfterKill g a player killed ++
      newKillDocs g player killed := by rw [hres]; rfl
  have hdrop : s'.targets.drop g.targets.length =
      newKillDocs g player killed := by
    rw [hst, ← oldTargetsAfterKill_length g a player killed]
    exact List.drop_left _ _
  have hmap := oldTargetsAfterKill_eq_map g a player killed
  refine ⟨a, player, ha, hp, ?_, ?_⟩
  · intro i hi hfrom hid hnv1 hnv2
    have hlen : i < (oldTargetsAfterKill g a player killed).length := by
      rw [oldTargetsAfterKill_length]
      exact hi
    have hgetg : g.targets.getD i default = g.targets[i] :=
      List.getD_eq_getElem _ _ hi
    have hgets : s'.targets.getD i default =
        (oldTargetsAfterKill g a player killed)[i] := by
      rw [hst]
      rw [List.getD_eq_getElem _ _
        (by rw [List.length_append]; omega)]
      exact List.getElem_append_left hlen
    rw [hgetg] at hid hnv1 hnv2 ⊢
    have hval : (oldTargetsAfterKill g a player killed)[i] =
        killEdgeUpdate a killed
          (resolvedPartner (killedPlayers g killed) player) g.targets[i] := by
      rw [List.getElem_of_eq hmap hlen, List.getElem_map]
    rw [hgets, hval]
    refine killEdgeUpdate_frame _ _ _ _ ?_ ?_ ?_
    · rw [haid]
      exact hid
    · rw [hkid]
      exact hnv1
    · rw [hkid]
      exact hnv2
  · intro _ q hq hstatus hnotin
    rw [hsp] at hq hnotin
    have hpot : q ∈ potentialTargetsOf (killedPlayers g killed) player :=
      mem_potentialTargetsOf.mpr ⟨hq, hstatus, hnotin⟩
    have hpair : (player.id, q.id) ∈ newKillPairs g player killed :=
      mem_newKillPairs.mpr ⟨q, hpot, Or.inl rfl⟩
    obtain ⟨e, he, h1, h2, h3⟩ := newKillPairs_to_doc hpair
    rw [hdrop]
    exact ⟨e, he, h1, h2, h3⟩

/-- Claim C2, witness: the partial elimination of player 3 in `scenarioB`
(partner 4 stays ALIVE), where the killer's untouched edges survive and the
fan-out is still inserted. -/
theorem killTarget_partial_frame_and_fanout_witness :
    killTarget PlayerRole.ADMIN 20 scenarioB
      = ((killTarget PlayerRole.ADMIN 20 scenarioB).1, none) ∧
    (∃ a player,
      TargetService.findById scenarioB.targets 20 = Except.ok (some a) ∧
      PlayerService.findById scenarioB.players a.playerId
        = Except.ok (some player) ∧
      (∀ i, i < scenarioB.targets.length →
        (scenarioB.targets.getD i default).playerId = a.playerId →
        (scenarioB.targets.getD i default).id ≠ 20 →
        (scenarioB.targets.getD i default).playerId ≠ a.targetId →
        (scenarioB.targets.getD i default).targetId ≠ a.targetId →
        (killTarget PlayerRole.ADMIN 20 scenarioB).1.targets.getD i default
          = scenarioB.targets.getD i default) ∧
      ((∃ killedRec, PlayerService.findById scenarioB.players a.targetId
          = Except.ok (some killedRec) ∧
        ∃ vpid, killedRec.teamPartnerId = some vpid ∧
          ∃ vp ∈ (killTarget PlayerRole.ADMIN 20 scenarioB).1.players,
            vp.id = vpid ∧ vp.status = PlayerStatus.ALIVE) →
       ∀ q ∈ (killTarget PlayerRole.ADMIN 20 scenarioB).1.players,
         (q.status = PlayerStatus.ALIVE ∨ q.status = PlayerStatus.SAFE) →
         q.id ∉ killerTeamIdsOf
           (killTarget PlayerRole.ADMIN 20 scenarioB).1.players player →
         ∃ e ∈ (killTarget PlayerRole.ADMIN 20 scenarioB).1.targets.drop
             scenarioB.targets.length,
           e.playerId = player.id ∧ e.targetId = q.id ∧
           e.status = TargetStatus.PENDING)) :=
  ⟨by decide,
   killTarget_partial_frame_and_fanout scenarioB
     (killTarget PlayerRole.ADMIN 20 scenarioB).1 20 (by decide)⟩

/-! ### Claim C3 -/

/-- Claim C3, counterexample.  Immediately after `matchPlayers` on the
spec's Scenario A (two two-member teams), player 1 holds two PENDING
outgoing assignments, violating the claimed `≤ 1` bound. -/
theorem matchPlayers_pending_gt_one_counterexample :
    (matchPlayers (fun ts => ts) PlayerRole.ADMIN scenarioA).2 = none ∧
    1 < pendingFromCount
        (matchPlayers (fun ts => ts) PlayerRole.ADMIN scenarioA).1 1 := by
  decide

/-- Claim C3 (amended).  Immediately after `matchPlayers` — run by an
admin, over players whose partner links are symmetric and irreflexive,
with any unbiased shuffle (modelled as an arbitrary permutation of the
team list) — each (game, fromPlayer) pair holds at most TWO PENDING
assignments: one per member of its successor team.  The claimed bound of
one does not hold (see the counterexample), and `killTarget` preserves no
such bound at all. -/
theorem matchPlayers_pending_le_two (g : GameState)
    (shuffle : List (List Nat) → List (List Nat)) (pid : Nat)
    (hsym : ∀ a ∈ PlayerService.findByGameAndStatus g.players
        [PlayerStatus.ALIVE, PlayerStatus.SAFE],
      ∀ b ∈ PlayerService.findByGameAndStatus g.players
        [PlayerStatus.ALIVE, PlayerStatus.SAFE],
      a.teamPartnerId = some b.id → b.teamPartnerId = some a.id)
    (hirr : ∀ a ∈ PlayerService.findByGameAndStatus g.players
        [PlayerStatus.ALIVE, PlayerStatus.SAFE],
      a.teamPartnerId ≠ some a.id)
    (hperm : (shuffle (computeValidTeams
        (PlayerService.findByGameAndStatus g.players
          [PlayerStatus.ALIVE, PlayerStatus.SAFE]))).Perm
      (computeValidTeams (PlayerService.findByGameAndStatus g.players
        [PlayerStatus.ALIVE, PlayerStatus.SAFE]))) :
    pendingFromCount (matchPlayers shuffle PlayerRole.ADMIN g).1 pid ≤ 2 := by
  obtain ⟨hnd, hsz⟩ := computeValidTeams_partition
    (PlayerService.findByGameAndStatus g.players
      [PlayerStatus.ALIVE, PlayerStatus.SAFE]) hsym hirr
  have hnd' : (shuffle (computeValidTeams
      (PlayerService.findByGameAndStatus g.players
        [PlayerStatus.ALIVE, PlayerStatus.SAFE]))).flatten.Nodup :=
    (hperm.symm.flatten).nodup hnd
  have hsz' : ∀ t ∈ shuffle (computeValidTeams
      (PlayerService.findByGameAndStatus g.players
        [PlayerStatus.ALIVE, PlayerStatus.SAFE])), t.length ≤ 2 :=
    fun t ht => hsz t (hperm.mem_iff.mp ht)
  have hres : (matchPlayers shuffle PlayerRole.ADMIN g).1.targets =
      mapStatus (fun t => if t.status == TargetStatus.PENDING
        then TargetStatus.EXPIRED else t.status) g.targets ++
      buildTargetDocs g.nextId (shuffle (computeValidTeams
        (PlayerService.findByGameAndStatus g.players
          [PlayerStatus.ALIVE, PlayerStatus.SAFE]))) := rfl
  unfold pendingFromCount
  rw [hres, ← List.countP_eq_length_filter, List.countP_append]
  have hexp : (mapStatus (fun t => if t.status == TargetStatus.PENDING
      then TargetStatus.EXPIRED else t.status) g.targets).countP
      (fun t => t.playerId == pid && t.status == TargetStatus.PENDING)
      = 0 := by
    rw [List.countP_eq_zero]
    intro e he
    obtain ⟨t, _, rfl⟩ := List.mem_map.mp he
    by_cases ht : t.status = TargetStatus.PENDING
    · simp [ht]
    · simp [ht]
  rw [hexp, Nat.zero_add]
  exact buildTargetDocs_pending_from_le_two _ _ _ hnd' hsz'

/-- Claim C3, witness: Scenario A run with the identity shuffle, where
every player ends with at most two PENDING outgoing edges. -/
theorem matchPlayers_pending_le_two_witness :
    ((∀ a ∈ PlayerService.findByGameAndStatus scenarioA.players
        [PlayerStatus.ALIVE, PlayerStatus.SAFE],
      ∀ b ∈ PlayerService.findByGameAndStatus scenarioA.players
        [PlayerStatus.ALIVE, PlayerStatus.SAFE],
      a.teamPartnerId = some b.id → b.teamPartnerId = some a.id) ∧
     (∀ a ∈ PlayerService.findByGameAndStatus scenarioA.players
        [PlayerStatus.ALIVE, PlayerStatus.SAFE],
      a.teamPartnerId ≠ some a.id) ∧
     ((fun ts : List (List Nat) => ts) (computeValidTeams
        (PlayerService.findByGameAndStatus scenarioA.players
          [PlayerStatus.ALIVE, PlayerStatus.SAFE]))).Perm
       (computeValidTeams (PlayerService.findByGameAndStatus
         scenarioA.players [PlayerStatus.ALIVE, PlayerStatus.SAFE]))) ∧
    pendingFromCount
      (matchPlayers (fun ts => ts) PlayerRole.ADMIN scenarioA).1 1 ≤ 2 :=
  ⟨⟨by decide, by decide, List.Perm.refl _⟩,
   matchPlayers_pending_le_two scenarioA (fun ts => ts) 1 (by decide)
     (by decide) (List.Perm.refl _)⟩

/-! ### Claim C4 -/

/-- Claim C4 (code bug), evaluation at the failing input.  With exactly one
team — a single solo ALIVE player — `matchPlayers` makes team 0 target team
`(0+1) % 1 = 0`, i.e. itself, and inserts the PENDING self-assignment
`1→1`, contradicting both "no edges with one team" and
"`fromPlayer ≠ toPlayer`". -/
theorem matchPlayers_single_team_self_edge :
    (matchPlayers (fun ts => ts) PlayerRole.ADMIN singleSolo).2 = none ∧
    (∃ e ∈ (matchPlayers (fun ts => ts) PlayerRole.ADMIN singleSolo).1.targets,
      e.playerId = 1 ∧ e.targetId = 1 ∧ e.status = TargetStatus.PENDING) := by
  decide

/-! ### Claim C5 -/

/-- Claim C5.  After a successful `killTarget` on a PENDING assignment:
the victim's player records are KILLED; the stored assignment with the
consumed id is COMPLETE (and only it — fresh inserts use larger ids); and
every other pre-existing edge that was PENDING and names the victim as
either endpoint is EXPIRED in the resulting state. -/
theorem killTarget_kill_postconditions (g s' : GameState) (tid : Nat)
    (hfresh : ∀ e ∈ g.targets, e.id < g.nextId)
    (h : killTarget PlayerRole.ADMIN tid g = (s', none)) :
    ∃ a, TargetService.findById g.targets tid = Except.ok (some a) ∧
      (∀ p ∈ s'.players, p.id = a.targetId →
        p.status = PlayerStatus.KILLED) ∧
      (∃ e ∈ s'.targets, e.id = tid ∧ e.status = TargetStatus.COMPLETE) ∧
      (∀ e ∈ s'.targets, e.id = tid → e.status = TargetStatus.COMPLETE) ∧
      (∀ i, i < g.targets.length →
        (g.targets.getD i default).id ≠ tid →
        (g.targets.getD i default).status = TargetStatus.PENDING →
        ((g.targets.getD i default).playerId = a.targetId ∨
         (g.targets.getD i default).targetId = a.targetId) →
        (s'.targets.getD i default).status = TargetStatus.EXPIRED) := by
  obtain ⟨a, player, killed, ha, hpend, hp, hk, hps, hks, hres⟩ :=
    killTarget_ok_elim h
  obtain ⟨hamem, haid⟩ := targetFindById_some ha
  obtain ⟨hkmem, hkid⟩ := playerFindById_some hk
  have hst : s'.targets = oldTargetsAfterKill g a player killed ++
      newKillDocs g player killed := by rw [hres]; rfl
  have hsp : s'.players = killedPlayers g killed := by rw [hres]; rfl
  have hmap := oldTargetsAfterKill_eq_map g a player killed
  refine ⟨a, ha, ?_, ?_, ?_, ?_⟩
  · intro p hpmem hpid
    rw [hsp] at hpmem
    unfold killedPlayers at hpmem
    obtain ⟨q, hq, rfl⟩ := List.mem_map.mp hpmem
    by_cases hqe : q.id = killed.id
    · simp [hqe]
    · simp only [hqe, beq_iff_eq, if_neg hqe] at hpid ⊢
      exact absurd (hpid.trans hkid.symm) hqe
  · refine ⟨killEdgeUpdate a killed
      (resolvedPartner (killedPlayers g killed) player) a, ?_, ?_, ?_⟩
    · rw [hst, hmap]
      exact List.mem_append_left _ (List.mem_map_of_mem _ hamem)
    · rw [(killEdgeUpdate_fields _ _ _ _).1]
      exact haid
    · exact killEdgeUpdate_complete _ _ _ _ rfl
  · intro e hemem heid
    rw [hst] at hemem
    rcases List.mem_append.mp hemem with hold | hnew
    · rw [hmap] at hold
      obtain ⟨t, ht, rfl⟩ := List.mem_map.mp hold
      have hfld := (killEdgeUpdate_fields a killed
        (resolvedPartner (killedPlayers g killed) player) t).1
      rw [hfld] at heid
      exact killEdgeUpdate_complete _ _ _ _ (heid.trans haid.symm)
    · have hge := newKillDocs_id_ge g player killed e hnew
      have hlt := hfresh a hamem
      rw [heid, ← haid] at hge
      omega
  · intro i hi hid hpd hnm
    have hlen : i < (oldTargetsAfterKill g a player killed).length := by
      rw [oldTargetsAfterKill_length]
      exact hi
    have hgetg : g.targets.getD i default = g.targets[i] :=
      List.getD_eq_getElem _ _ hi
    have hgets : s'.targets.getD i default =
        (oldTargetsAfterKill g a player killed)[i] := by
      rw [hst]
      rw [List.getD_eq_getElem _ _
        (by rw [List.length_append]; omega)]
      exact List.getElem_append_left hlen
    rw [hgetg] at hid hpd hnm
    have hval : (oldTargetsAfterKill g a player killed)[i] =
        killEdgeUpdate a killed
          (resolvedPartner (killedPlayers g killed) player) g.targets[i] := by
      rw [List.getElem_of_eq hmap hlen, List.getElem_map]
    rw [hgets, hval]
    refine killEdgeUpdate_expire _ _ _ _ ?_ hpd ?_
    · rw [haid]
      exact hid
    · rw [hkid]
      rcases hnm with hn | hn
      · exact Or.inl hn
      · exact Or.inr hn

/-- Claim C5, witness: the kill `1→3` in `scenarioB` satisfies every
postcondition. -/
theorem killTarget_kill_postconditions_witness :
    ((∀ e ∈ scenarioB.targets, e.id < scenarioB.nextId) ∧
     killTarget PlayerRole.ADMIN 20 scenarioB
       = ((killTarget PlayerRole.ADMIN 20 scenarioB).1, none)) ∧
    (∃ a, TargetService.findById scenarioB.targets 20
        = Except.ok (some a) ∧
      (∀ p ∈ (killTarget PlayerRole.ADMIN 20 scenarioB).1.players,
        p.id = a.targetId → p.status = PlayerStatus.KILLED) ∧
      (∃ e ∈ (killTarget PlayerRole.ADMIN 20 scenarioB).1.targets,
        e.id = 20 ∧ e.status = TargetStatus.COMPLETE) ∧
      (∀ e ∈ (killTarget PlayerRole.ADMIN 20 scenarioB).1.targets,
        e.id = 20 → e.status = TargetStatus.COMPLETE) ∧
      (∀ i, i < scenarioB.targets.length →
        (scenarioB.targets.getD i default).id ≠ 20 →
        (scenarioB.targets.getD i default).status = TargetStatus.PENDING →
        ((scenarioB.targets.getD i default).playerId = a.targetId ∨
         (scenarioB.targets.getD i default).targetId = a.targetId) →
        ((killTarget PlayerRole.ADMIN 20 scenarioB).1.targets.getD i
          default).status = TargetStatus.EXPIRED)) :=
  ⟨⟨by decide, by decide⟩,
   killTarget_kill_postconditions scenarioB
     (killTarget PlayerRole.ADMIN 20 scenarioB).1 20 (by decide) (by decide)⟩

/-! ### Claim C6 -/

/-- Claim C6.  A second `killTarget` call with the same assignment id fails
with `TargetStatusNotValidException` and leaves the state unchanged: the
first call moved the assignment from PENDING to COMPLETE, so the repeated
report is rejected by the PENDING guard. -/
theorem killTarget_double_report_invalid (g s' : GameState) (tid : Nat)
    (h : killTarget PlayerRole.ADMIN tid g = (s', none)) :
    killTarget PlayerRole.ADMIN tid s' =
      (s', some (ServiceError.targetStatusNotValid tid
        TargetStatus.COMPLETE)) := by
  obtain ⟨a, player, killed, ha, hpend, hp, hk, hps, hks, hres⟩ :=
    killTarget_ok_elim h
  obtain ⟨hmem, haid⟩ := targetFindById_some ha
  have hhead : (g.targets.filter (fun t => t.id == tid)).head? = some a :=
    Except.ok.inj ((targetFindById_eq g.targets tid) ▸ ha)
  have hhead' : (g.targets.filter (fun t => t.id == a.id)).head? = some a := by
    rw [haid]; exact hhead
  have hold := oldTargetsAfterKill_head_complete g a player killed hhead'
  have happ := filter_append_head?_left (newKillDocs g player killed) hold
  have hfind' : TargetService.findById s'.targets tid =
      Except.ok (some { a with status := TargetStatus.COMPLETE }) := by
    rw [hres, ← haid]
    exact (targetFindById_eq _ _).trans (congrArg Except.ok happ)
  unfold killTarget
  simp [hfind']

/-- Claim C6, witness: reporting the kill `1→2` of `twoSolo` twice succeeds
once and fails the second time with `TargetStatusNotValidException`. -/
theorem killTarget_double_report_invalid_witness :
    killTarget PlayerRole.ADMIN 10 twoSolo
      = ((killTarget PlayerRole.ADMIN 10 twoSolo).1, none) ∧
    killTarget PlayerRole.ADMIN 10 (killTarget PlayerRole.ADMIN 10 twoSolo).1
      = ((killTarget PlayerRole.ADMIN 10 twoSolo).1,
         some (ServiceError.targetStatusNotValid 10 TargetStatus.COMPLETE)) :=
  ⟨by decide,
   killTarget_double_report_invalid twoSolo
     (killTarget PlayerRole.ADMIN 10 twoSolo).1 10 (by decide)⟩

/-! ### Claim C7 -/

/-- Claim C7.  When the assignment resolves and is PENDING but the killer
(`fromPlayer`) or the victim (`toPlayer`) is not currently ALIVE,
`killTarget` throws `PlayerStatusNotValidException` naming one of the two,
and the returned state is the unchanged input — every such guard precedes
the first write. -/
theorem killTarget_requires_alive_participants (g : GameState) (tid : Nat)
    (a : Target) (player killed : Player)
    (ha : TargetService.findById g.targets tid = Except.ok (some a))
    (hpend : a.status = TargetStatus.PENDING)
    (hp : PlayerService.findById g.players a.playerId = Except.ok (some player))
    (hk : PlayerService.findById g.players a.targetId = Except.ok (some killed))
    (hdead : player.status ≠ PlayerStatus.ALIVE ∨
             killed.status ≠ PlayerStatus.ALIVE) :
    killTarget PlayerRole.ADMIN tid g
        = (g, some (ServiceError.playerStatusNotValid a.playerId)) ∨
    killTarget PlayerRole.ADMIN tid g
        = (g, some (ServiceError.playerStatusNotValid a.targetId)) := by
  by_cases hps : player.status = PlayerStatus.ALIVE
  · right
    have hks : killed.status ≠ PlayerStatus.ALIVE := by
      rcases hdead with h | h
      · exact absurd hps h
      · exact h
    unfold killTarget
    simp [ha, hp, hk, hpend, hps, hks]
  · left
    unfold killTarget
    simp [ha, hp, hk, hpend, hps]

/-- Claim C7, witness: in `toggleState` the assignment `1→2` names the SAFE
player 2 as victim, so the kill report is rejected with
`PlayerStatusNotValidException` and the state is unchanged. -/
theorem killTarget_requires_alive_participants_witness :
    (TargetService.findById toggleState.targets 10
        = Except.ok (some ⟨10, 1, 2, TargetStatus.PENDING⟩) ∧
     PlayerService.findById toggleState.players 1
        = Except.ok (some ⟨1, PlayerStatus.ALIVE, none⟩) ∧
     PlayerService.findById toggleState.players 2
        = Except.ok (some ⟨2, PlayerStatus.SAFE, none⟩)) ∧
    (killTarget PlayerRole.ADMIN 10 toggleState
        = (toggleState, some (ServiceError.playerStatusNotValid 1)) ∨
     killTarget PlayerRole.ADMIN 10 toggleState
        = (toggleState, some (ServiceError.playerStatusNotValid 2))) :=
  ⟨by decide,
   killTarget_requires_alive_participants toggleState 10
     ⟨10, 1, 2, TargetStatus.PENDING⟩ ⟨1, PlayerStatus.ALIVE, none⟩
     ⟨2, PlayerStatus.SAFE, none⟩ (by decide) (by decide) (by decide)
     (by decide) (by decide)⟩

/-! ### Claim C8 -/

/-- Claim C8, counterexample.  Killing player 2 in `twoSolo` leaves exactly
one live team, yet `killTarget` performs no game-completion signalling: the
game status is still IN_PROGRESS (the completion check in the source is
commented out, and the method returns no result object). -/
theorem killTarget_no_game_complete_counterexample :
    (killTarget PlayerRole.ADMIN 10 twoSolo).2 = none ∧
    ((killTarget PlayerRole.ADMIN 10 twoSolo).1.players.filter (fun p =>
        p.status == PlayerStatus.ALIVE || p.status == PlayerStatus.SAFE)).length
      = 1 ∧
    (killTarget PlayerRole.ADMIN 10 twoSolo).1.gameStatus
      = GameStatus.IN_PROGRESS := by
  decide

/-- Claim C8 (amended).  `killTarget` returns no
`{ victimId, teamEliminated, gameComplete }` result and performs no
game-completion signalling: whatever the input and outcome, the game's
lifecycle status is exactly what it was before the call. -/
theorem killTarget_gameStatus_unchanged (role : PlayerRole) (tid : Nat)
    (g : GameState) :
    ((killTarget role tid g).1).gameStatus = g.gameStatus := by
  unfold killTarget
  repeat' split
  all_goals rfl

/-! ### Claim C9 -/

/-- Claim C9.  `makePlayerSafe` run by an admin toggles an ALIVE player to
SAFE and a SAFE player back to ALIVE, leaves every target assignment (and
the game status, and every other player) unchanged, and rejects a KILLED
or DISQUALIFIED player with `PlayerStatusNotValidException` without
touching the state. -/
theorem makePlayerSafe_toggle_and_frame (g : GameState) (pid : Nat)
    (p : Player)
    (hp : PlayerService.findById g.players pid = Except.ok (some p)) :
    ((p.status = PlayerStatus.ALIVE ∨ p.status = PlayerStatus.SAFE) →
      ∃ s', makePlayerSafe PlayerRole.ADMIN pid g = (s', none) ∧
        s'.targets = g.targets ∧
        s'.gameStatus = g.gameStatus ∧
        s'.players.length = g.players.length ∧
        (∀ i, i < g.players.length →
          ((g.players.getD i default).id ≠ pid →
            s'.players.getD i default = g.players.getD i default) ∧
          ((g.players.getD i default).id = pid →
            s'.players.getD i default =
              { g.players.getD i default with
                status := if p.status = PlayerStatus.ALIVE
                  then PlayerStatus.SAFE else PlayerStatus.ALIVE }))) ∧
    ((p.status = PlayerStatus.KILLED ∨
        p.status = PlayerStatus.DISQUALIFIED) →
      makePlayerSafe PlayerRole.ADMIN pid g =
        (g, some (ServiceError.playerStatusNotValid pid))) := by
  constructor
  · intro hal
    have hguard : ¬(p.status ≠ PlayerStatus.ALIVE ∧
        p.status ≠ PlayerStatus.SAFE) := by
      rcases hal with h | h <;> simp [h]
    refine ⟨{ g with players := g.players.map (fun q =>
        if q.id == pid then
          { q with status := if p.status = PlayerStatus.ALIVE
              then PlayerStatus.SAFE else PlayerStatus.ALIVE }
        else q) }, ?_, rfl, rfl, by simp, ?_⟩
    · unfold makePlayerSafe
      simp only [hp]
      rw [if_neg (by simp), if_neg hguard]
    · intro i hi
      have hlen : i < (g.players.map (fun q =>
          if q.id == pid then
            { q with status := if p.status = PlayerStatus.ALIVE
                then PlayerStatus.SAFE else PlayerStatus.ALIVE }
          else q)).length := by simpa using hi
      have hget : ({ g with players := g.players.map (fun q =>
          if q.id == pid then
            { q with status := if p.status = PlayerStatus.ALIVE
                then PlayerStatus.SAFE else PlayerStatus.ALIVE }
          else q) } : GameState).players.getD i default =
          (fun q : Player =>
            if q.id == pid then
              { q with status := if p.status = PlayerStatus.ALIVE
                  then PlayerStatus.SAFE else PlayerStatus.ALIVE }
            else q) (g.players[i]) := by
        rw [List.getD_eq_getElem _ _ hlen]
        exact List.getElem_map _
      have hgetg : g.players.getD i default = g.players[i] :=
        List.getD_eq_getElem _ _ hi
      constructor
      · intro hid
        rw [hgetg] at hid ⊢
        rw [hget]
        simp [hid]
      · intro hid
        rw [hgetg] at hid ⊢
        rw [hget]
        simp [hid]
  · intro hkil
    have hguard : p.status ≠ PlayerStatus.ALIVE ∧
        p.status ≠ PlayerStatus.SAFE := by
      rcases hkil with h | h <;> simp [h]
    unfold makePlayerSafe
    simp only [hp]
    rw [if_neg (by simp), if_pos hguard]

/-- Claim C9, witness: toggling the ALIVE player 1 of `toggleState`. -/
theorem makePlayerSafe_toggle_and_frame_witness :
    PlayerService.findById toggleState.players 1
      = Except.ok (some ⟨1, PlayerStatus.ALIVE, none⟩) ∧
    ((((⟨1, PlayerStatus.ALIVE, none⟩ : Player).status = PlayerStatus.ALIVE ∨
        (⟨1, PlayerStatus.ALIVE, none⟩ : Player).status = PlayerStatus.SAFE) →
      ∃ s', makePlayerSafe PlayerRole.ADMIN 1 toggleState = (s', none) ∧
        s'.targets = toggleState.targets ∧
        s'.gameStatus = toggleState.gameStatus ∧
        s'.players.length = toggleState.players.length ∧
        (∀ i, i < toggleState.players.length →
          ((toggleState.players.getD i default).id ≠ 1 →
            s'.players.getD i default = toggleState.players.getD i default) ∧
          ((toggleState.players.getD i default).id = 1 →
            s'.players.getD i default =
              { toggleState.players.getD i default with
                status := if (⟨1, PlayerStatus.ALIVE, none⟩ : Player).status
                    = PlayerStatus.ALIVE
                  then PlayerStatus.SAFE else PlayerStatus.ALIVE }))) ∧
     (((⟨1, PlayerStatus.ALIVE, none⟩ : Player).status = PlayerStatus.KILLED ∨
        (⟨1, PlayerStatus.ALIVE, none⟩ : Player).status
          = PlayerStatus.DISQUALIFIED) →
      makePlayerSafe PlayerRole.ADMIN 1 toggleState =
        (toggleState, some (ServiceError.playerStatusNotValid 1)))) :=
  ⟨by decide,
   makePlayerSafe_toggle_and_frame toggleState 1
     ⟨1, PlayerStatus.ALIVE, none⟩ (by decide)⟩

/-! ### Claim C10 -/

/-- Claim C10, counterexample.  Id 99 is absent from `fourSoloCycle`:
`findById` resolves `none` without throwing, but `killTarget`'s own
falsiness guard on the resolved value then throws `TargetNotFoundException`,
so reporting a kill with an unknown assignment id does fail with
TargetNotFound. -/
theorem killTarget_unknown_id_notfound_counterexample :
    TargetService.findById fourSoloCycle.targets 99 = Except.ok none ∧
    killTarget PlayerRole.ADMIN 99 fourSoloCycle =
      (fourSoloCycle, some (ServiceError.targetNotFound 99)) := by
  decide

/-- Claim C10 (amended).  For an id absent from storage, `findById` indeed
resolves `none` rather than throwing — its guard tests the returned array,
which is never falsy — but `killTarget` separately tests the resolved value
for falsiness, so a kill report with an unknown assignment id still fails
with `TargetNotFoundException`, raised by `killTarget`'s own guard. -/
theorem findById_absent_killTarget_notFound (g : GameState) (tid : Nat)
    (h : ∀ e ∈ g.targets, e.id ≠ tid) :
    TargetService.findById g.targets tid = Except.ok none ∧
    killTarget PlayerRole.ADMIN tid g =
      (g, some (ServiceError.targetNotFound tid)) := by
  have hfilter : g.targets.filter (fun t => t.id == tid) = [] := by
    rw [List.filter_eq_nil_iff]
    intro t ht
    simpa using h t ht
  have hfind : TargetService.findById g.targets tid = Except.ok none := by
    rw [targetFindById_eq, hfilter]
    rfl
  refine ⟨hfind, ?_⟩
  unfold killTarget
  simp [hfind]

/-- Claim C10, witness: id 99 is absent from `scenarioB`, `findById`
resolves `none`, and `killTarget` fails with TargetNotFound. -/
theorem findById_absent_killTarget_notFound_witness :
    (∀ e ∈ scenarioB.targets, e.id ≠ 99) ∧
    (TargetService.findById scenarioB.targets 99 = Except.ok none ∧
     killTarget PlayerRole.ADMIN 99 scenarioB =
       (scenarioB, some (ServiceError.targetNotFound 99))) :=
  ⟨by decide, findById_absent_killTarget_notFound scenarioB 99 (by decide)⟩

end WhitmanWipeout
